import Mathlib

/-!
# Shallow embedding of `cppdi::Container` (src/include/Container.hpp)

The repository is a single-header C++ dependency-injection container.  We
model it as a state-passing interpreter:

* instances are identified by allocation order (`InstId`); a `shared_ptr`
  is `Option InstId` (`none` = `nullptr`);
* `typeid(T).hash_code()` is modelled by an arbitrary `hash : TypeKey → Nat`
  applied to the type's identity `TypeKey` (so hash collisions between
  distinct types remain expressible);
* `std::any` values stored/returned by creators are `AnyPtr`: the exact
  static type `shared_ptr<T>` that was put into the `any` together with the
  pointer value; `std::any_cast<std::shared_ptr<Base>>` succeeds exactly
  when the stored static type is `Base` and throws `std::bad_any_cast`
  otherwise;
* global mutable state that outlives a single `Container` (the allocation
  counter and the function-local `static` variables inside the lambdas
  built by `AddSingleton(std::function<...>)`, lines 102-106 and 134-138 of
  the header) lives in `World`.  A function-local `static` in a lambda
  defined inside the member template `AddSingleton<Type>` is one variable
  per (overload, `Type`) pair, shared by every `Container` object;
* user-supplied factories are modelled by small inductives of behaviours
  (`Factory`, `CFactory`); every invocation of a user factory is recorded
  in `World.facLog`, and every instance construction in `World.allocLog`,
  so "the producer executed exactly once" is a statement about these logs.

Note on the registry-aware overloads (`AddTransient`/`AddSingleton` taking
`std::function<std::shared_ptr<Type>(const Container&)>`, lines 115-141):
as written their lambdas use `*this` while capturing only `creator`, which
is ill-formed C++ (g++ 12: "error: 'this' was not captured for this lambda
function", diagnosed at lines 120 and 136 even without instantiating the
overloads).  The model below gives these overloads the semantics the
surrounding code unambiguously intends (the capture list extended with
`this`), so that properties of the intended behaviour can still be stated;
theorems about them are read against that caveat.
-/

deriving instance DecidableEq for Except

namespace Cppdi

/-- Identity of an abstract service type (stands for the C++ type itself;
`typeid(T).hash_code()` is `hash` applied to it). -/
abbrev TypeKey := Nat

/-- Identity of a realized instance: its allocation number. -/
abbrev InstId := Nat

/-- A `std::shared_ptr<T>` value: `none` is `nullptr`. -/
abbrev Ptr := Option InstId

/-- How an instance was constructed (which constructor ran, with which
argument).  `copyOf` is the copy construction "fresh copy of the pointee"
that the spec prescribes for transient-from-instance; the code instead
performs `fromSharedPtr` (it forwards the `shared_ptr` handle itself to
`Type`'s constructor, `std::make_shared<Type>(instance)`, line 63). -/
inductive Ctor where
  | default : Ctor
  | fromSharedPtr : Ptr → Ctor
  | copyOf : InstId → Ctor
  | byFactory : Nat → Ctor
  | fromDep : Ptr → Ctor
  deriving DecidableEq

/-- A type-erased `std::any` holding a `std::shared_ptr<tk>`: records the
exact static type put into the `any` and the pointer value. -/
structure AnyPtr where
  tk : TypeKey
  ptr : Ptr
  deriving DecidableEq

/-- Behaviour of a user-supplied zero-argument factory
(`std::function<std::shared_ptr<Type>()>`); `fid` identifies the factory in
the invocation log. -/
inductive Factory where
  | fresh (fid : Nat)
  | retNull (fid : Nat)
  | retPtr (fid : Nat) (p : Ptr)
  deriving DecidableEq

/-- The identifier of a zero-argument factory. -/
def Factory.fid : Factory → Nat
  | .fresh f => f
  | .retNull f => f
  | .retPtr f _ => f

/-- Behaviour of a user-supplied registry-aware factory
(`std::function<std::shared_ptr<Type>(const Container&)>`):
`resolveDep fid depTk` calls `container.GetService<Dep>()` on the container
it receives and constructs its result from the resolved dependency. -/
inductive CFactory where
  | fresh (fid : Nat)
  | retNull (fid : Nat)
  | resolveDep (fid : Nat) (depTk : TypeKey)
  deriving DecidableEq

/-- The identifier of a registry-aware factory. -/
def CFactory.fid : CFactory → Nat
  | .fresh f => f
  | .retNull f => f
  | .resolveDep f _ => f

/-- The stored creation strategy (`std::function<std::any()>` value placed
in `_services`), one constructor per registration overload of the header:
type pair (lines 39-52), pre-built instance (lines 58-82), zero-argument
factory (lines 88-109), registry-aware factory (lines 115-141); transient
and singleton variants each. -/
inductive Creator where
  | transientCT (tk : TypeKey)
  | singletonCT (tk : TypeKey)
  | instTransient (tk : TypeKey) (inst : Ptr)
  | instSingleton (tk : TypeKey) (inst : Ptr)
  | facTransient (tk : TypeKey) (f : Factory)
  | facSingleton (tk : TypeKey) (f : Factory)
  | cfacTransient (tk : TypeKey) (f : CFactory)
  | cfacSingleton (tk : TypeKey) (f : CFactory)
  deriving DecidableEq

/-- The abstract type a creator was registered for (the `Type`/`Base`
template argument of the registration that built it). -/
def Creator.key : Creator → TypeKey
  | .transientCT tk => tk
  | .singletonCT tk => tk
  | .instTransient tk _ => tk
  | .instSingleton tk _ => tk
  | .facTransient tk _ => tk
  | .facSingleton tk _ => tk
  | .cfacTransient tk _ => tk
  | .cfacSingleton tk _ => tk

/-- Program-wide mutable state outside any one container: the allocation
counter, the construction log, the factory-invocation log, and the
initialized function-local `static` variables of the singleton-factory
lambdas, keyed by (overload, `Type`) — slot `(0, tk)` for the zero-argument
overload (line 104), slot `(1, tk)` for the registry-aware overload
(line 136).  These statics are shared by all `Container` objects. -/
structure World where
  nextId : Nat
  allocLog : List (InstId × TypeKey × Ctor)
  facLog : List Nat
  statics : List ((Nat × TypeKey) × Ptr)
  deriving DecidableEq

/-- The state of one `cppdi::Container` object: `_services` (line 219) and
`_singletons` (line 220), both `std::map`s keyed by
`typeid(Base).hash_code()`. -/
structure Container where
  services : List (Nat × Creator)
  singletons : List (Nat × AnyPtr)
  deriving DecidableEq

/-- A default-constructed container. -/
def Container.empty : Container := ⟨[], []⟩

/-- A fresh program state: nothing allocated, no statics initialized. -/
def World.fresh : World := ⟨0, [], [], []⟩

/-- `std::map::find` on an association list with `Nat` keys. -/
def lookupKey {α : Type} (k : Nat) : List (Nat × α) → Option α
  | [] => none
  | (k', v) :: rest => if k' = k then some v else lookupKey k rest

/-- `std::map::find` on the static-slot table. -/
def lookupSlot (k : Nat × TypeKey) : List ((Nat × TypeKey) × Ptr) → Option Ptr
  | [] => none
  | (k', v) :: rest => if k' = k then some v else lookupSlot k rest

/-- Construct a new instance (`std::make_shared`): returns its identity and
records the construction. -/
def World.allocate (w : World) (tk : TypeKey) (ct : Ctor) : InstId × World :=
  (w.nextId,
   { w with
       nextId := w.nextId + 1
       allocLog := w.allocLog ++ [(w.nextId, tk, ct)] })

/-- Record one invocation of the user factory `fid`. -/
def World.logFac (w : World) (fid : Nat) : World :=
  { w with facLog := w.facLog ++ [fid] }

/-- Run a user-supplied zero-argument factory. -/
def runFactory (tk : TypeKey) (f : Factory) (w : World) : Ptr × World :=
  match f with
  | .fresh fid =>
      let a := (w.logFac fid).allocate tk (.byFactory fid)
      (some a.1, a.2)
  | .retNull fid => (none, w.logFac fid)
  | .retPtr fid p => (p, w.logFac fid)

/-- Outcomes of a resolution that does not return normally:
`badAnyCast` is the `std::bad_any_cast` thrown by `std::any_cast` in
`GetService` (line 154); `noImpl tk` is the `std::runtime_error` thrown by
`GetRequiredService` (line 171); `outOfFuel` is the modelling artifact for
a non-terminating recursive resolution (the code has no cycle detection). -/
inductive Err where
  | badAnyCast
  | noImpl (tk : TypeKey)
  | outOfFuel
  deriving DecidableEq

/-- The text of the error thrown by `GetRequiredService` (line 171), given
the diagnostic name `typeid(Base).name()` of a type. -/
def errMessage (typeName : TypeKey → String) : Err → Option String
  | .noImpl tk => some ("No implementation registered for " ++ typeName tk)
  | _ => none

/-- `std::any_cast<std::shared_ptr<Base>>` applied to the creator's result
in `GetService` (line 154): succeeds iff the `any` holds exactly a
`shared_ptr<Base>`, otherwise throws `std::bad_any_cast`. -/
def castResult (tk : TypeKey) :
    Except Err AnyPtr × Container × World → Except Err Ptr × Container × World
  | (.ok a, c, w) =>
      if a.tk = tk then (.ok a.ptr, c, w) else (.error .badAnyCast, c, w)
  | (.error e, c, w) => (.error e, c, w)

/-- `Container::GetService<Base>()` (lines 147-158), with the stored
creators interpreted in-line.  `fuel` bounds the depth of nested
resolutions performed by registry-aware factories (the source recurses
without bound; `Err.outOfFuel` marks exhaustion).  Each creator case
mirrors the lambda built by the corresponding registration overload:

* `transientCT`: `GetTransientCreator` (lines 192-200) —
  `make_shared<Derived>()` upcast to `Base`, wrapped in an `any`;
* `singletonCT`: `GetSingletonCreator` (lines 202-217) — consult
  `_singletons`, on a miss run the transient creator once and memoize;
* `instTransient`: line 61-64 — `make_shared<Type>(instance)`: a new object
  constructed with the captured `shared_ptr` as constructor argument;
* `instSingleton`: line 76-79 — return the captured instance;
* `facTransient`: line 89-92 — run the captured factory;
* `facSingleton`: lines 102-106 — function-local `static` slot `(0, tk)`:
  initialized by running the factory on first invocation, then returned;
* `cfacTransient`: lines 118-121 — run the captured factory on the owning
  container (intended semantics; see the header comment about `*this`);
* `cfacSingleton`: lines 134-138 — function-local `static` slot `(1, tk)`
  initialized from the factory applied to the owning container.

If the entry's creator returns normally, its `any` result is narrowed by
`std::any_cast<std::shared_ptr<Base>>`; an absent entry yields `nullptr`
without error.  `fuel = 0` reports exhaustion outright, so `fuel` bounds
the total nesting depth of resolutions. -/
def getService : Nat → (TypeKey → Nat) → Container → World → TypeKey →
    Except Err Ptr × Container × World
  | 0, _, c, w, _ => (.error .outOfFuel, c, w)
  | fuel + 1, hash, c, w, tk =>
    match lookupKey (hash tk) c.services with
    | none => (.ok none, c, w)
    | some cr =>
      castResult tk
        (match cr with
         | .transientCT btk =>
             let a := w.allocate btk .default
             (.ok ⟨btk, some a.1⟩, c, a.2)
         | .singletonCT btk =>
             match lookupKey (hash btk) c.singletons with
             | some a => (.ok a, c, w)
             | none =>
                 let a := w.allocate btk .default
                 (.ok ⟨btk, some a.1⟩,
                  { c with singletons := (hash btk, ⟨btk, some a.1⟩) :: c.singletons },
                  a.2)
         | .instTransient btk inst =>
             let a := w.allocate btk (.fromSharedPtr inst)
             (.ok ⟨btk, some a.1⟩, c, a.2)
         | .instSingleton btk inst => (.ok ⟨btk, inst⟩, c, w)
         | .facTransient btk f =>
             let a := runFactory btk f w
             (.ok ⟨btk, a.1⟩, c, a.2)
         | .facSingleton btk f =>
             match lookupSlot (0, btk) w.statics with
             | some p => (.ok ⟨btk, p⟩, c, w)
             | none =>
                 let a := runFactory btk f w
                 (.ok ⟨btk, a.1⟩, c,
                  { a.2 with statics := ((0, btk), a.1) :: a.2.statics })
         | .cfacTransient btk f =>
             match f with
             | .fresh fid =>
                 let a := (w.logFac fid).allocate btk (.byFactory fid)
                 (.ok ⟨btk, some a.1⟩, c, a.2)
             | .retNull fid => (.ok ⟨btk, none⟩, c, w.logFac fid)
             | .resolveDep fid depTk =>
                 match getService fuel hash c (w.logFac fid) depTk with
                 | (.ok d, c1, w1) =>
                     let a := w1.allocate btk (.fromDep d)
                     (.ok ⟨btk, some a.1⟩, c1, a.2)
                 | (.error e, c1, w1) => (.error e, c1, w1)
         | .cfacSingleton btk f =>
             match lookupSlot (1, btk) w.statics with
             | some p => (.ok ⟨btk, p⟩, c, w)
             | none =>
                 match f with
                 | .fresh fid =>
                     let a := (w.logFac fid).allocate btk (.byFactory fid)
                     (.ok ⟨btk, some a.1⟩, c,
                      { a.2 with statics := ((1, btk), some a.1) :: a.2.statics })
                 | .retNull fid =>
                     let w1 := w.logFac fid
                     (.ok ⟨btk, none⟩, c,
                      { w1 with statics := ((1, btk), none) :: w1.statics })
                 | .resolveDep fid depTk =>
                     match getService fuel hash c (w.logFac fid) depTk with
                     | (.ok d, c1, w1) =>
                         let a := w1.allocate btk (.fromDep d)
                         (.ok ⟨btk, some a.1⟩, c1,
                          { a.2 with statics := ((1, btk), some a.1) :: a.2.statics })
                     | (.error e, c1, w1) => (.error e, c1, w1))

/-- `Container::GetRequiredService<Base>()` (lines 165-174): calls
`GetService`, throws `noImpl` on a null result, propagates exceptions. -/
def getRequiredService (fuel : Nat) (hash : TypeKey → Nat) (c : Container)
    (w : World) (tk : TypeKey) : Except Err InstId × Container × World :=
  match getService fuel hash c w tk with
  | (.ok none, c1, w1) => (.error (.noImpl tk), c1, w1)
  | (.ok (some i), c1, w1) => (.ok i, c1, w1)
  | (.error e, c1, w1) => (.error e, c1, w1)

/-- `Container::AddService` (lines 176-190): `_services.emplace(key, ...)`
with `key = typeid(Base).hash_code()`.  `std::map::emplace` inserts only
when the key is absent; a duplicate key leaves the map unchanged. -/
def Container.addService (hash : TypeKey → Nat) (c : Container)
    (tk : TypeKey) (cr : Creator) : Container :=
  if (lookupKey (hash tk) c.services).isSome then c
  else { c with services := (hash tk, cr) :: c.services }

/-- One registration call on the public surface, one constructor per
overload: `AddTransient<Base, Derived>()`, `AddSingleton<Base, Derived>()`,
`AddTransient(instance)`, `AddSingleton(instance)`,
`AddTransient(factory)`, `AddSingleton(factory)` and the registry-aware
factory variants. -/
inductive Reg where
  | transientType (tk : TypeKey)
  | singletonType (tk : TypeKey)
  | transientInstance (tk : TypeKey) (inst : Ptr)
  | singletonInstance (tk : TypeKey) (inst : Ptr)
  | transientFactory (tk : TypeKey) (f : Factory)
  | singletonFactory (tk : TypeKey) (f : Factory)
  | transientCFactory (tk : TypeKey) (f : CFactory)
  | singletonCFactory (tk : TypeKey) (f : CFactory)
  deriving DecidableEq

/-- The abstract type a registration call is for. -/
def Reg.tk : Reg → TypeKey
  | .transientType tk => tk
  | .singletonType tk => tk
  | .transientInstance tk _ => tk
  | .singletonInstance tk _ => tk
  | .transientFactory tk _ => tk
  | .singletonFactory tk _ => tk
  | .transientCFactory tk _ => tk
  | .singletonCFactory tk _ => tk

/-- The creator each registration overload builds and hands to
`AddService`.  Every overload only constructs a closure; no user producer
is invoked and no instance is created at registration time. -/
def Reg.creator : Reg → Creator
  | .transientType tk => .transientCT tk
  | .singletonType tk => .singletonCT tk
  | .transientInstance tk inst => .instTransient tk inst
  | .singletonInstance tk inst => .instSingleton tk inst
  | .transientFactory tk f => .facTransient tk f
  | .singletonFactory tk f => .facSingleton tk f
  | .transientCFactory tk f => .cfacTransient tk f
  | .singletonCFactory tk f => .cfacSingleton tk f

/-- Execute one registration call on a container. -/
def applyReg (hash : TypeKey → Nat) (c : Container) (r : Reg) : Container :=
  c.addService hash r.tk r.creator

/-- Execute one registration call on the pair (container, program state).
The registration bodies of the header only build `std::function` closures
and `emplace` them (lines 39-141, 176-190): they construct no service
instance, invoke no user factory and initialize no `static`, so the
`World` component passes through untouched. -/
def applyRegW (hash : TypeKey → Nat) (cw : Container × World) (r : Reg) :
    Container × World :=
  (applyReg hash cw.1 r, cw.2)

/-- A setup phase: a sequence of registration calls. -/
def applyRegsW (hash : TypeKey → Nat) (cw : Container × World) :
    List Reg → Container × World
  | [] => cw
  | r :: rs => applyRegsW hash (applyRegW hash cw r) rs

/-- A sequence of registration calls acting on the container alone. -/
def applyRegs (hash : TypeKey → Nat) (c : Container) : List Reg → Container
  | [] => c
  | r :: rs => applyRegs hash (applyReg hash c r) rs

/-- `n` consecutive `GetService<tk>()` calls on the same container,
returning the list of results in order. -/
def resolveN (fuel : Nat) (hash : TypeKey → Nat) :
    Nat → Container → World → TypeKey → List (Except Err Ptr) × Container × World
  | 0, c, w, _ => ([], c, w)
  | n + 1, c, w, tk =>
      let s := getService fuel hash c w tk
      let rest := resolveN fuel hash n s.2.1 s.2.2 tk
      (s.1 :: rest.1, rest.2)

/-! ## Small simp lemmas about the state primitives -/

@[simp] theorem allocate_fst (w : World) (tk : TypeKey) (ct : Ctor) :
    (w.allocate tk ct).1 = w.nextId := rfl

@[simp] theorem allocate_nextId (w : World) (tk : TypeKey) (ct : Ctor) :
    (w.allocate tk ct).2.nextId = w.nextId + 1 := rfl

@[simp] theorem allocate_allocLog (w : World) (tk : TypeKey) (ct : Ctor) :
    (w.allocate tk ct).2.allocLog = w.allocLog ++ [(w.nextId, tk, ct)] := rfl

@[simp] theorem allocate_facLog (w : World) (tk : TypeKey) (ct : Ctor) :
    (w.allocate tk ct).2.facLog = w.facLog := rfl

@[simp] theorem allocate_statics (w : World) (tk : TypeKey) (ct : Ctor) :
    (w.allocate tk ct).2.statics = w.statics := rfl

@[simp] theorem logFac_nextId (w : World) (fid : Nat) :
    (w.logFac fid).nextId = w.nextId := rfl

@[simp] theorem logFac_allocLog (w : World) (fid : Nat) :
    (w.logFac fid).allocLog = w.allocLog := rfl

@[simp] theorem logFac_facLog (w : World) (fid : Nat) :
    (w.logFac fid).facLog = w.facLog ++ [fid] := rfl

@[simp] theorem logFac_statics (w : World) (fid : Nat) :
    (w.logFac fid).statics = w.statics := rfl

/-- The factory-invocation log after one run of a zero-argument user
factory: exactly one new entry, the factory's identifier. -/
theorem runFactory_facLog (tk : TypeKey) (f : Factory) (w : World) :
    (runFactory tk f w).2.facLog = w.facLog ++ [f.fid] := by
  cases f <;> simp [runFactory, Factory.fid]

/-! ## Single-call behaviour of `GetService`, one lemma per creator shape -/

theorem getService_unregistered (fuel : Nat) (hash : TypeKey → Nat)
    (c : Container) (w : World) (tk : TypeKey)
    (h : lookupKey (hash tk) c.services = none) :
    getService (fuel + 1) hash c w tk = (.ok none, c, w) := by
  simp [getService, h]

theorem getService_transientCT (fuel : Nat) (hash : TypeKey → Nat)
    (c : Container) (w : World) (tk : TypeKey)
    (h : lookupKey (hash tk) c.services = some (.transientCT tk)) :
    getService (fuel + 1) hash c w tk =
      (.ok (some w.nextId), c, (w.allocate tk .default).2) := by
  simp [getService, h, castResult]

theorem getService_singletonCT_miss (fuel : Nat) (hash : TypeKey → Nat)
    (c : Container) (w : World) (tk : TypeKey)
    (hs : lookupKey (hash tk) c.services = some (.singletonCT tk))
    (hm : lookupKey (hash tk) c.singletons = none) :
    getService (fuel + 1) hash c w tk =
      (.ok (some w.nextId),
       { c with singletons := (hash tk, ⟨tk, some w.nextId⟩) :: c.singletons },
       (w.allocate tk .default).2) := by
  simp [getService, hs, hm, castResult]

theorem getService_singletonCT_hit (fuel : Nat) (hash : TypeKey → Nat)
    (c : Container) (w : World) (tk : TypeKey) (p : Ptr)
    (hs : lookupKey (hash tk) c.services = some (.singletonCT tk))
    (hm : lookupKey (hash tk) c.singletons = some ⟨tk, p⟩) :
    getService (fuel + 1) hash c w tk = (.ok p, c, w) := by
  simp [getService, hs, hm, castResult]

theorem getService_instTransient (fuel : Nat) (hash : TypeKey → Nat)
    (c : Container) (w : World) (tk : TypeKey) (inst : Ptr)
    (h : lookupKey (hash tk) c.services = some (.instTransient tk inst)) :
    getService (fuel + 1) hash c w tk =
      (.ok (some w.nextId), c, (w.allocate tk (.fromSharedPtr inst)).2) := by
  simp [getService, h, castResult]

theorem getService_instSingleton (fuel : Nat) (hash : TypeKey → Nat)
    (c : Container) (w : World) (tk : TypeKey) (inst : Ptr)
    (h : lookupKey (hash tk) c.services = some (.instSingleton tk inst)) :
    getService (fuel + 1) hash c w tk = (.ok inst, c, w) := by
  simp [getService, h, castResult]

theorem getService_facTransient (fuel : Nat) (hash : TypeKey → Nat)
    (c : Container) (w : World) (tk : TypeKey) (f : Factory)
    (h : lookupKey (hash tk) c.services = some (.facTransient tk f)) :
    getService (fuel + 1) hash c w tk =
      (.ok (runFactory tk f w).1, c, (runFactory tk f w).2) := by
  simp [getService, h]
  cases f <;> simp [castResult, runFactory]

theorem getService_facSingleton_miss (fuel : Nat) (hash : TypeKey → Nat)
    (c : Container) (w : World) (tk : TypeKey) (f : Factory)
    (hs : lookupKey (hash tk) c.services = some (.facSingleton tk f))
    (hm : lookupSlot (0, tk) w.statics = none) :
    getService (fuel + 1) hash c w tk =
      (.ok (runFactory tk f w).1, c,
       { (runFactory tk f w).2 with
           statics := ((0, tk), (runFactory tk f w).1) :: (runFactory tk f w).2.statics }) := by
  cases f <;> simp [getService, hs, hm, castResult, runFactory]

theorem getService_facSingleton_hit (fuel : Nat) (hash : TypeKey → Nat)
    (c : Container) (w : World) (tk : TypeKey) (f : Factory) (p : Ptr)
    (hs : lookupKey (hash tk) c.services = some (.facSingleton tk f))
    (hm : lookupSlot (0, tk) w.statics = some p) :
    getService (fuel + 1) hash c w tk = (.ok p, c, w) := by
  simp [getService, hs, hm, castResult]

/-- If one `GetService` call returns a value and leaves the container and
the program state unchanged, then so do `m` consecutive calls, all
returning the same value. -/
theorem resolveN_steady (fuel : Nat) (hash : TypeKey → Nat) (m : Nat)
    (c : Container) (w : World) (tk : TypeKey) (p : Except Err Ptr)
    (h : getService fuel hash c w tk = (p, c, w)) :
    resolveN fuel hash m c w tk = (List.replicate m p, c, w) := by
  induction m with
  | zero => simp [resolveN]
  | succ n ih => simp [resolveN, h, ih, List.replicate]

/-! ## Registration-map lemmas -/

theorem lookupKey_eq_none_iff {α : Type} (k : Nat) (l : List (Nat × α)) :
    lookupKey k l = none ↔ k ∉ l.map Prod.fst := by
  induction l with
  | nil => simp [lookupKey]
  | cons hd tl ih =>
      obtain ⟨k', v⟩ := hd
      by_cases hk : k' = k
      · subst hk
        simp [lookupKey]
      · have hk2 : ¬k = k' := fun h => hk h.symm
        simp [lookupKey, hk, hk2, ih]

theorem addService_keys_nodup (hash : TypeKey → Nat) (c : Container)
    (tk : TypeKey) (cr : Creator) (h : (c.services.map Prod.fst).Nodup) :
    (((Container.addService hash c tk cr).services).map Prod.fst).Nodup := by
  unfold Container.addService
  by_cases hk : (lookupKey (hash tk) c.services).isSome
  · simp [hk, h]
  · have hnone : lookupKey (hash tk) c.services = none :=
      Option.not_isSome_iff_eq_none.mp hk
    simp [hk, List.nodup_cons, h, (lookupKey_eq_none_iff _ _).mp hnone]

theorem applyRegs_keys_nodup (hash : TypeKey → Nat) (rs : List Reg)
    (c : Container) (h : (c.services.map Prod.fst).Nodup) :
    (((applyRegs hash c rs).services).map Prod.fst).Nodup := by
  induction rs generalizing c with
  | nil => simpa [applyRegs] using h
  | cons r rs ih =>
      simp only [applyRegs]
      exact ih _ (addService_keys_nodup hash c r.tk r.creator h)

theorem applyRegsW_world (hash : TypeKey → Nat) (rs : List Reg)
    (cw : Container × World) : (applyRegsW hash cw rs).2 = cw.2 := by
  induction rs generalizing cw with
  | nil => simp [applyRegsW]
  | cons r rs ih => simp [applyRegsW, applyRegW, ih]

/-! ## The claims -/

/-- C1: for every abstract type `T` registered with singleton lifetime —
by concrete type, by pre-built instance, or by factory — `N` consecutive
`GetService<T>()` calls on the same container all return the same instance
identity; the underlying creation strategy runs exactly once across all
`N` calls (one construction for the concrete-type shape, one factory
invocation for the factory shape, and no construction at all for the
pre-built instance, which was created before registration), and the
realized instance is never replaced: the final state shows exactly the
one memoization performed by the first call.  The factory shape is stated
from an uninitialized function-local static slot and the concrete-type
shape from an unpopulated `_singletons` cache, i.e. for resolutions
starting from the registration. -/
theorem spec_C1_singleton_same_instance_producer_once (fuel n : Nat)
    (hash : TypeKey → Nat) (tk : TypeKey) :
    (∀ (c : Container) (w : World),
        lookupKey (hash tk) c.services = some (.singletonCT tk) →
        lookupKey (hash tk) c.singletons = none →
        resolveN (fuel + 1) hash (n + 1) c w tk =
          (List.replicate (n + 1) (.ok (some w.nextId)),
           { c with singletons := (hash tk, ⟨tk, some w.nextId⟩) :: c.singletons },
           (w.allocate tk .default).2)) ∧
    (∀ (c : Container) (w : World) (f : Factory),
        lookupKey (hash tk) c.services = some (.facSingleton tk f) →
        lookupSlot (0, tk) w.statics = none →
        resolveN (fuel + 1) hash (n + 1) c w tk =
          (List.replicate (n + 1) (.ok (runFactory tk f w).1), c,
           { (runFactory tk f w).2 with
               statics := ((0, tk), (runFactory tk f w).1) ::
                 (runFactory tk f w).2.statics }) ∧
        (runFactory tk f w).2.facLog = w.facLog ++ [f.fid]) ∧
    (∀ (c : Container) (w : World) (inst : Ptr),
        lookupKey (hash tk) c.services = some (.instSingleton tk inst) →
        resolveN (fuel + 1) hash (n + 1) c w tk =
          (List.replicate (n + 1) (.ok inst), c, w)) := by
  refine ⟨?_, ?_, ?_⟩
  · intro c w hs hm
    have h1 := getService_singletonCT_miss fuel hash c w tk hs hm
    have hhit : lookupKey (hash tk)
        ({ c with
            singletons := (hash tk, ⟨tk, some w.nextId⟩) :: c.singletons } :
          Container).singletons = some ⟨tk, some w.nextId⟩ := by
      simp [lookupKey]
    have h2 := getService_singletonCT_hit fuel hash
      { c with singletons := (hash tk, ⟨tk, some w.nextId⟩) :: c.singletons }
      ((w.allocate tk .default).2) tk (some w.nextId) (by simpa using hs) hhit
    have h3 := resolveN_steady (fuel + 1) hash n _ _ tk _ h2
    simp [resolveN, h1, h3, List.replicate]
  · intro c w f hs hm
    have h1 := getService_facSingleton_miss fuel hash c w tk f hs hm
    have hslot : lookupSlot (0, tk)
        ({ (runFactory tk f w).2 with
            statics := ((0, tk), (runFactory tk f w).1) ::
              (runFactory tk f w).2.statics } : World).statics
          = some (runFactory tk f w).1 := by
      simp [lookupSlot]
    have h2 := getService_facSingleton_hit fuel hash c
      { (runFactory tk f w).2 with
          statics := ((0, tk), (runFactory tk f w).1) ::
            (runFactory tk f w).2.statics }
      tk f (runFactory tk f w).1 hs hslot
    have h3 := resolveN_steady (fuel + 1) hash n _ _ tk _ h2
    exact ⟨by simp [resolveN, h1, h3, List.replicate], runFactory_facLog tk f w⟩
  · intro c w inst hs
    exact resolveN_steady (fuel + 1) hash (n + 1) c w tk _
      (getService_instSingleton fuel hash c w tk inst hs)

/-- Witness for C1: a container with a concrete-type singleton for key 7, a
container with a factory singleton for key 8, and a container with a
pre-built-instance singleton for key 9, each resolved twice from a fresh
program state: both calls return the same instance and the logs show a
single producer execution. -/
theorem spec_C1_singleton_same_instance_producer_once_witness :
    (resolveN 1 id 2 (applyReg id Container.empty (.singletonType 7))
        World.fresh 7).1 = [.ok (some 0), .ok (some 0)] ∧
    ((resolveN 1 id 2 (applyReg id Container.empty (.singletonFactory 8 (.fresh 1)))
        World.fresh 8).1 = [.ok (some 0), .ok (some 0)] ∧
     (resolveN 1 id 2 (applyReg id Container.empty (.singletonFactory 8 (.fresh 1)))
        World.fresh 8).2.2.facLog = [1]) ∧
    (resolveN 1 id 2 (applyReg id Container.empty (.singletonInstance 9 (some 5)))
        World.fresh 9).1 = [.ok (some 5), .ok (some 5)] := by
  have ha := (spec_C1_singleton_same_instance_producer_once 0 1 id 7).1
    (applyReg id Container.empty (.singletonType 7)) World.fresh rfl rfl
  have hb := (spec_C1_singleton_same_instance_producer_once 0 1 id 8).2.1
    (applyReg id Container.empty (.singletonFactory 8 (.fresh 1))) World.fresh
    (.fresh 1) rfl rfl
  have hc := (spec_C1_singleton_same_instance_producer_once 0 1 id 9).2.2
    (applyReg id Container.empty (.singletonInstance 9 (some 5))) World.fresh
    (some 5) rfl
  refine ⟨?_, ⟨?_, ?_⟩, ?_⟩ <;> first
  | (rw [ha]; rfl)
  | (rw [hb.1]; rfl)
  | (rw [hc]; rfl)

/-- C2: for an abstract type registered with transient lifetime by concrete
type, two consecutive `GetService<T>()` calls return distinct instance
identities (two fresh allocations); and for the factory shape the creation
strategy is invoked afresh on every resolution (one factory invocation per
call). -/
theorem spec_C2_transient_distinct_instances (fuel : Nat)
    (hash : TypeKey → Nat) (tk : TypeKey) :
    (∀ (c : Container) (w : World),
        lookupKey (hash tk) c.services = some (.transientCT tk) →
        (resolveN (fuel + 1) hash 2 c w tk).1 =
          [.ok (some w.nextId), .ok (some (w.nextId + 1))] ∧
        w.nextId ≠ w.nextId + 1) ∧
    (∀ (c : Container) (w : World) (f : Factory),
        lookupKey (hash tk) c.services = some (.facTransient tk f) →
        (resolveN (fuel + 1) hash 2 c w tk).2.2.facLog =
          w.facLog ++ [f.fid, f.fid]) := by
  constructor
  · intro c w hs
    have h1 := getService_transientCT fuel hash c w tk hs
    have h2 := getService_transientCT fuel hash c ((w.allocate tk .default).2) tk hs
    refine ⟨by simp [resolveN, h1, h2], by omega⟩
  · intro c w f hs
    have h1 := getService_facTransient fuel hash c w tk f hs
    have h2 := getService_facTransient fuel hash c ((runFactory tk f w).2) tk f hs
    simp [resolveN, h1, h2, runFactory_facLog]

/-- Witness for C2: a transient concrete-type registration under key 4
resolved twice from a fresh program state yields instances 0 and 1; a
transient factory registration under key 4 resolved twice logs two factory
invocations. -/
theorem spec_C2_transient_distinct_instances_witness :
    ((resolveN 1 id 2 (applyReg id Container.empty (.transientType 4))
        World.fresh 4).1 = [.ok (some 0), .ok (some 1)] ∧ (0 : Nat) ≠ 1) ∧
    (resolveN 1 id 2 (applyReg id Container.empty (.transientFactory 4 (.fresh 2)))
        World.fresh 4).2.2.facLog = [2, 2] := by
  have ha := (spec_C2_transient_distinct_instances 0 id 4).1
    (applyReg id Container.empty (.transientType 4)) World.fresh rfl
  have hb := (spec_C2_transient_distinct_instances 0 id 4).2
    (applyReg id Container.empty (.transientFactory 4 (.fresh 2))) World.fresh
    (.fresh 2) rfl
  exact ⟨⟨by rw [ha.1]; rfl, by omega⟩, by rw [hb]; rfl⟩

/-- C3: for an abstract type with no registration, `GetService<T>()`
returns the explicit absent result (`nullptr`) without throwing and without
touching any state, and `GetRequiredService<T>()` fails with
`std::runtime_error` whose message is
`"No implementation registered for "` followed by the diagnostic name of
`T`. -/
theorem spec_C3_unregistered_service (fuel : Nat) (hash : TypeKey → Nat)
    (c : Container) (w : World) (tk : TypeKey) (typeName : TypeKey → String)
    (h : lookupKey (hash tk) c.services = none) :
    getService (fuel + 1) hash c w tk = (.ok none, c, w) ∧
    getRequiredService (fuel + 1) hash c w tk = (.error (.noImpl tk), c, w) ∧
    errMessage typeName (.noImpl tk) =
      some ("No implementation registered for " ++ typeName tk) := by
  have hg := getService_unregistered fuel hash c w tk h
  exact ⟨hg, by simp [getRequiredService, hg], rfl⟩

/-- Witness for C3: key 5 is unregistered in an empty container. -/
theorem spec_C3_unregistered_service_witness :
    getService 1 id Container.empty World.fresh 5 =
      (.ok none, Container.empty, World.fresh) ∧
    getRequiredService 1 id Container.empty World.fresh 5 =
      (.error (.noImpl 5), Container.empty, World.fresh) := by
  have h := spec_C3_unregistered_service 0 id Container.empty World.fresh 5
    (fun _ => "class Unregistered") rfl
  exact ⟨h.1, h.2.1⟩

/-- C6: at most one registration entry exists per Type Identity per
container (the key list of `_services` stays duplicate-free under any
registration sequence), and a duplicate registration of an already
registered abstract type is a complete no-op — the container is unchanged,
so every subsequent resolution keeps using the first-registered creation
strategy (`std::map::emplace` rejects duplicate keys). -/
theorem spec_C6_one_entry_first_registration_wins :
    (∀ (hash : TypeKey → Nat) (c : Container) (r : Reg),
        (lookupKey (hash r.tk) c.services).isSome → applyReg hash c r = c) ∧
    (∀ (hash : TypeKey → Nat) (rs : List Reg),
        (((applyRegs hash Container.empty rs).services).map Prod.fst).Nodup) := by
  constructor
  · intro hash c r h
    simp [applyReg, Container.addService, h]
  · intro hash rs
    exact applyRegs_keys_nodup hash rs Container.empty (by simp [Container.empty])

/-- Witness for C6: registering key 3 twice (first transient by type, then
singleton by type) leaves the container exactly as after the first
registration, and a three-element registration sequence with a duplicate
produces a duplicate-free key list. -/
theorem spec_C6_one_entry_first_registration_wins_witness :
    (lookupKey (id (Reg.singletonType 3).tk)
        (applyReg id Container.empty (.transientType 3)).services).isSome ∧
    applyReg id (applyReg id Container.empty (.transientType 3))
        (.singletonType 3) =
      applyReg id Container.empty (.transientType 3) ∧
    (((applyRegs id Container.empty
        [.transientType 3, .singletonType 3, .transientType 8]).services).map
          Prod.fst).Nodup := by
  refine ⟨by decide, ?_, ?_⟩
  · exact spec_C6_one_entry_first_registration_wins.1 id
      (applyReg id Container.empty (.transientType 3)) (.singletonType 3)
      (by decide)
  · exact spec_C6_one_entry_first_registration_wins.2 id
      [.transientType 3, .singletonType 3, .transientType 8]

/-- C8: registering a singleton never invokes its producer — a whole
registration phase leaves the program state (allocation log, factory log,
static slots) untouched because every registration overload only builds a
closure and emplaces it — and the producer runs only upon the first
resolution request: the first `GetService` call after a factory-singleton
registration performs exactly one factory invocation, and after a
concrete-type singleton registration exactly one construction. -/
theorem spec_C8_singleton_registration_lazy (hash : TypeKey → Nat) :
    (∀ (cw : Container × World) (rs : List Reg),
        (applyRegsW hash cw rs).2 = cw.2) ∧
    (∀ (fuel : Nat) (c : Container) (w : World) (tk : TypeKey) (f : Factory),
        lookupKey (hash tk) c.services = some (.facSingleton tk f) →
        lookupSlot (0, tk) w.statics = none →
        (getService (fuel + 1) hash c w tk).2.2.facLog = w.facLog ++ [f.fid]) ∧
    (∀ (fuel : Nat) (c : Container) (w : World) (tk : TypeKey),
        lookupKey (hash tk) c.services = some (.singletonCT tk) →
        lookupKey (hash tk) c.singletons = none →
        (getService (fuel + 1) hash c w tk).2.2.allocLog =
          w.allocLog ++ [(w.nextId, tk, .default)]) := by
  refine ⟨fun cw rs => applyRegsW_world hash rs cw, ?_, ?_⟩
  · intro fuel c w tk f hs hm
    rw [getService_facSingleton_miss fuel hash c w tk f hs hm]
    simp [runFactory_facLog]
  · intro fuel c w tk hs hm
    rw [getService_singletonCT_miss fuel hash c w tk hs hm]
    simp

/-- Witness for C8: a three-registration setup phase leaves the fresh
program state untouched; the first resolution of a factory singleton logs
exactly one invocation of factory 1; the first resolution of a
concrete-type singleton logs exactly one construction. -/
theorem spec_C8_singleton_registration_lazy_witness :
    (applyRegsW id (Container.empty, World.fresh)
        [.singletonFactory 7 (.fresh 1), .singletonType 8,
         .singletonInstance 9 (some 5)]).2 = World.fresh ∧
    (getService 1 id (applyReg id Container.empty (.singletonFactory 7 (.fresh 1)))
        World.fresh 7).2.2.facLog = [1] ∧
    (getService 1 id (applyReg id Container.empty (.singletonType 8))
        World.fresh 8).2.2.allocLog = [(0, 8, .default)] := by
  refine ⟨(spec_C8_singleton_registration_lazy id).1 (Container.empty, World.fresh) _, ?_, ?_⟩
  · have h := (spec_C8_singleton_registration_lazy id).2.1 0
      (applyReg id Container.empty (.singletonFactory 7 (.fresh 1)))
      World.fresh 7 (.fresh 1) rfl rfl
    rw [h]
    rfl
  · have h := (spec_C8_singleton_registration_lazy id).2.2 0
      (applyReg id Container.empty (.singletonType 8)) World.fresh 8 rfl rfl
    rw [h]
    rfl

/-- C10: a registered creation strategy that yields a null handle is
indistinguishable from an unregistered service at the public interface:
whenever `GetService<T>()` returns the null result — which happens in
particular for a registered transient factory returning `nullptr` —
`GetRequiredService<T>()` throws the very same
"No implementation registered for T" error as for an unregistered type,
even though `T` has a registration. -/
theorem spec_C10_null_creator_like_unregistered (fuel : Nat)
    (hash : TypeKey → Nat) :
    (∀ (c : Container) (w : World) (tk : TypeKey) (c1 : Container) (w1 : World),
        getService fuel hash c w tk = (.ok none, c1, w1) →
        getRequiredService fuel hash c w tk = (.error (.noImpl tk), c1, w1)) ∧
    (∀ (c : Container) (w : World) (tk : TypeKey) (fid : Nat),
        lookupKey (hash tk) c.services = some (.facTransient tk (.retNull fid)) →
        getService (fuel + 1) hash c w tk = (.ok none, c, w.logFac fid) ∧
        getRequiredService (fuel + 1) hash c w tk =
          (.error (.noImpl tk), c, w.logFac fid) ∧
        lookupKey (hash tk) c.services ≠ none) := by
  have key : ∀ (f : Nat) (c : Container) (w : World) (tk : TypeKey)
      (c1 : Container) (w1 : World),
      getService f hash c w tk = (.ok none, c1, w1) →
      getRequiredService f hash c w tk = (.error (.noImpl tk), c1, w1) := by
    intro f c w tk c1 w1 h
    simp [getRequiredService, h]
  constructor
  · exact key fuel
  · intro c w tk fid hs
    have h1 := getService_facTransient fuel hash c w tk (.retNull fid) hs
    have h1' : getService (fuel + 1) hash c w tk = (.ok none, c, w.logFac fid) := by
      simpa [runFactory] using h1
    exact ⟨h1', key (fuel + 1) c w tk c (w.logFac fid) h1', by simp [hs]⟩

/-- Witness for C10: a transient factory for key 6 that returns `nullptr`:
`GetService` yields the null result and `GetRequiredService` throws the
unregistered-style error although key 6 is registered. -/
theorem spec_C10_null_creator_like_unregistered_witness :
    getService 1 id (applyReg id Container.empty (.transientFactory 6 (.retNull 3)))
      World.fresh 6 = (.ok none,
        applyReg id Container.empty (.transientFactory 6 (.retNull 3)),
        World.fresh.logFac 3) ∧
    getRequiredService 1 id
      (applyReg id Container.empty (.transientFactory 6 (.retNull 3)))
      World.fresh 6 = (.error (.noImpl 6),
        applyReg id Container.empty (.transientFactory 6 (.retNull 3)),
        World.fresh.logFac 3) := by
  have h := (spec_C10_null_creator_like_unregistered 0 id).2
    (applyReg id Container.empty (.transientFactory 6 (.retNull 3)))
    World.fresh 6 3 rfl
  exact ⟨h.1, h.2.1⟩

/-! ## Well-formedness of a container's type-erased storage

`ServicesWellKeyed` says every `_services` entry sits under the
`hash_code` of the abstract type it was registered for — which is how
`AddService` (lines 181, 188) computes the key.  `SingletonsConsistent`
says every `_singletons` entry was memoized by the singleton creator
registered at the same key, which is what `GetSingletonCreator`
(lines 207-214) does. -/

def ServicesWellKeyed (hash : TypeKey → Nat) (c : Container) : Prop :=
  ∀ e ∈ c.services, e.1 = hash (Creator.key e.2)

def SingletonsConsistent (_hash : TypeKey → Nat) (c : Container) : Prop :=
  ∀ e ∈ c.singletons,
    lookupKey e.1 c.services = some (.singletonCT e.2.tk)

theorem lookupKey_mem {α : Type} (k : Nat) (l : List (Nat × α)) (v : α)
    (h : lookupKey k l = some v) : (k, v) ∈ l := by
  induction l with
  | nil => simp [lookupKey] at h
  | cons hd tl ih =>
      obtain ⟨k', v'⟩ := hd
      by_cases hk : k' = k
      · subst hk
        simp [lookupKey] at h
        simp [h]
      · simp [lookupKey, hk] at h
        simp [ih h]

/-- The registration overloads hand `AddService` a creator for exactly the
abstract type being registered. -/
theorem Reg.creator_key (r : Reg) : (Reg.creator r).key = r.tk := by
  cases r <;> rfl

theorem applyRegs_servicesWellKeyed (hash : TypeKey → Nat) (rs : List Reg)
    (c : Container) (h : ServicesWellKeyed hash c) :
    ServicesWellKeyed hash (applyRegs hash c rs) := by
  induction rs generalizing c with
  | nil => simpa [applyRegs] using h
  | cons r rs ih =>
      simp only [applyRegs]
      refine ih _ ?_
      unfold applyReg Container.addService
      by_cases hk : (lookupKey (hash r.tk) c.services).isSome
      · simpa [hk] using h
      · intro e he
        simp [hk] at he
        rcases he with he | he
        · simp [he, Reg.creator_key]
        · exact h e he

theorem applyRegs_singletons (hash : TypeKey → Nat) (rs : List Reg)
    (c : Container) : (applyRegs hash c rs).singletons = c.singletons := by
  induction rs generalizing c with
  | nil => simp [applyRegs]
  | cons r rs ih =>
      simp only [applyRegs]
      rw [ih]
      unfold applyReg Container.addService
      by_cases hk : (lookupKey (hash r.tk) c.services).isSome <;> simp [hk]

/-- A pure setup phase starting from a default-constructed container
produces well-formed type-erased storage. -/
theorem applyRegs_wellFormed (hash : TypeKey → Nat) (rs : List Reg) :
    ServicesWellKeyed hash (applyRegs hash Container.empty rs) ∧
    SingletonsConsistent hash (applyRegs hash Container.empty rs) := by
  refine ⟨applyRegs_servicesWellKeyed hash rs Container.empty ?_, ?_⟩
  · intro e he
    simp [Container.empty] at he
  · intro e he
    rw [applyRegs_singletons] at he
    simp [Container.empty] at he

/-! ## `std::any_cast` behaviour -/

theorem castResult_snd (tk : TypeKey)
    (x : Except Err AnyPtr × Container × World) :
    (castResult tk x).2 = x.2 := by
  obtain ⟨r, c1, w1⟩ := x
  cases r with
  | ok a => by_cases htk : a.tk = tk <;> simp [castResult, htk]
  | error e => simp [castResult]

theorem castResult_ok_tk (tk : TypeKey) (r : Except Err AnyPtr)
    (c1 : Container) (w1 : World) (p : Ptr)
    (h : (castResult tk (r, c1, w1)).1 = .ok p) :
    ∃ a, r = .ok a ∧ a.tk = tk ∧ a.ptr = p := by
  cases r with
  | ok a =>
      by_cases htk : a.tk = tk
      · refine ⟨a, rfl, htk, ?_⟩
        simpa [castResult, htk] using h
      · simp [castResult, htk] at h
  | error e => simp [castResult] at h

theorem castResult_ok_pair_key (tk btk : TypeKey) (q : Ptr) (c1 : Container)
    (w1 : World) (p : Ptr)
    (h : (castResult tk (.ok ⟨btk, q⟩, c1, w1)).1 = .ok p) : btk = tk := by
  obtain ⟨a, ha, htk, _⟩ := castResult_ok_tk tk (.ok ⟨btk, q⟩) c1 w1 p h
  cases ha
  exact htk

theorem castResult_pair_not_badCast (tk : TypeKey) (q : Ptr) (c1 : Container)
    (w1 : World)
    (h : (castResult tk (.ok (⟨tk, q⟩ : AnyPtr), c1, w1)).1 =
      .error .badAnyCast) : False := by
  simp [castResult] at h

/-- Resolution preserves well-formedness of the type-erased storage: the
only container mutation `GetService` performs is the memoization done by
`GetSingletonCreator`, which stores its own creator's output under its own
key. -/
theorem getService_preserves_wellFormed (hash : TypeKey → Nat) :
    ∀ (fuel : Nat) (c : Container) (w : World) (tk : TypeKey),
      ServicesWellKeyed hash c → SingletonsConsistent hash c →
      ServicesWellKeyed hash (getService fuel hash c w tk).2.1 ∧
      SingletonsConsistent hash (getService fuel hash c w tk).2.1 := by
  intro fuel
  induction fuel with
  | zero =>
      intro c w tk h1 h2
      simpa [getService] using ⟨h1, h2⟩
  | succ f ih =>
      intro c w tk h1 h2
      cases hls : lookupKey (hash tk) c.services with
      | none => simpa [getService, hls] using ⟨h1, h2⟩
      | some cr =>
          have hkey : hash tk = hash cr.key :=
            h1 (hash tk, cr) (lookupKey_mem _ _ _ hls)
          cases cr with
          | transientCT btk =>
              simpa [getService, hls, castResult_snd] using ⟨h1, h2⟩
          | singletonCT btk =>
              cases hm : lookupKey (hash btk) c.singletons with
              | some a => simpa [getService, hls, hm, castResult_snd] using ⟨h1, h2⟩
              | none =>
                  simp only [getService, hls, hm, castResult_snd]
                  constructor
                  · intro e he
                    exact h1 e he
                  · intro e he
                    simp at he
                    rcases he with he | he
                    · subst he
                      simpa using hkey ▸ hls
                    · simpa using h2 e he
          | instTransient btk inst =>
              simpa [getService, hls, castResult_snd] using ⟨h1, h2⟩
          | instSingleton btk inst =>
              simpa [getService, hls, castResult_snd] using ⟨h1, h2⟩
          | facTransient btk fc =>
              simpa [getService, hls, castResult_snd] using ⟨h1, h2⟩
          | facSingleton btk fc =>
              cases hm : lookupSlot (0, btk) w.statics with
              | some p => simpa [getService, hls, hm, castResult_snd] using ⟨h1, h2⟩
              | none => simpa [getService, hls, hm, castResult_snd] using ⟨h1, h2⟩
          | cfacTransient btk fc =>
              cases fc with
              | fresh fid =>
                  simpa [getService, hls, castResult_snd] using ⟨h1, h2⟩
              | retNull fid =>
                  simpa [getService, hls, castResult_snd] using ⟨h1, h2⟩
              | resolveDep fid depTk =>
                  have hrec := ih c (w.logFac fid) depTk h1 h2
                  rcases hgs : getService f hash c (w.logFac fid) depTk with
                    ⟨r', c1, w1⟩
                  rw [hgs] at hrec
                  cases r' with
                  | ok d => simpa [getService, hls, hgs, castResult_snd] using hrec
                  | error e => simpa [getService, hls, hgs, castResult_snd] using hrec
          | cfacSingleton btk fc =>
              cases hm : lookupSlot (1, btk) w.statics with
              | some p => simpa [getService, hls, hm, castResult_snd] using ⟨h1, h2⟩
              | none =>
                  cases fc with
                  | fresh fid =>
                      simpa [getService, hls, hm, castResult_snd] using ⟨h1, h2⟩
                  | retNull fid =>
                      simpa [getService, hls, hm, castResult_snd] using ⟨h1, h2⟩
                  | resolveDep fid depTk =>
                      have hrec := ih c (w.logFac fid) depTk h1 h2
                      rcases hgs : getService f hash c (w.logFac fid) depTk with
                        ⟨r', c1, w1⟩
                      rw [hgs] at hrec
                      cases r' with
                      | ok d =>
                          simpa [getService, hls, hm, hgs, castResult_snd] using hrec
                      | error e =>
                          simpa [getService, hls, hm, hgs, castResult_snd] using hrec

/-- C9: resolution never silently narrows the type-erased storage to a
wrong type.  For well-formed storage (every `_services` entry keyed by its
own registration's `hash_code`, every `_singletons` entry memoized by the
creator at the same key — exactly what registration and resolution
produce): (a) whenever `GetService<Base>()` returns a handle, the entry it
used was created by a registration for `Base` itself, so the
`std::any_cast` narrowing was applied to an `any` genuinely holding a
`shared_ptr<Base>`; (b) a matched entry's own cast never fails — a
`bad_any_cast` surfacing from resolving a type whose entry was registered
for that very type can only be one propagated out of a nested dependency
resolution inside a registry-aware factory, never this entry's own
narrowing; and a mismatched entry (hash collision) makes resolution throw
`bad_any_cast`, a reported error, rather than produce a wrongly-typed
handle. -/
theorem spec_C9_type_narrowing_safe (fuel : Nat) (hash : TypeKey → Nat) :
    (∀ (c : Container) (w : World) (tk : TypeKey) (p : Ptr),
        ServicesWellKeyed hash c → SingletonsConsistent hash c →
        (getService fuel hash c w tk).1 = .ok p →
        (lookupKey (hash tk) c.services = none ∧ p = none) ∨
        ∃ cr, lookupKey (hash tk) c.services = some cr ∧ cr.key = tk) ∧
    (∀ (c : Container) (w : World) (tk : TypeKey) (cr : Creator),
        ServicesWellKeyed hash c → SingletonsConsistent hash c →
        lookupKey (hash tk) c.services = some cr → cr.key = tk →
        (getService fuel hash c w tk).1 = .error .badAnyCast →
        ∃ fid depTk,
          cr = .cfacTransient tk (.resolveDep fid depTk) ∨
          cr = .cfacSingleton tk (.resolveDep fid depTk)) := by
  constructor
  · intro c w tk p hWK hSC hok
    cases fuel with
    | zero => simp [getService] at hok
    | succ f =>
      cases hls : lookupKey (hash tk) c.services with
      | none =>
          simp only [getService, hls] at hok
          exact .inl ⟨rfl, by simpa using hok.symm⟩
      | some cr =>
          have hkey : hash tk = hash cr.key :=
            hWK (hash tk, cr) (lookupKey_mem _ _ _ hls)
          refine .inr ⟨cr, rfl, ?_⟩
          cases cr with
          | transientCT btk =>
              simp only [getService, hls] at hok
              exact castResult_ok_pair_key tk btk _ _ _ p hok
          | singletonCT btk =>
              cases hm : lookupKey (hash btk) c.singletons with
              | none =>
                  simp only [getService, hls, hm] at hok
                  exact castResult_ok_pair_key tk btk _ _ _ p hok
              | some a =>
                  simp only [getService, hls, hm] at hok
                  obtain ⟨a', ha', htk, _⟩ := castResult_ok_tk tk _ _ _ p hok
                  injection ha' with ha'
                  have hkey2 : hash tk = hash btk := hkey
                  rw [hkey2] at hls
                  have hsvc := hSC (hash btk, a) (lookupKey_mem _ _ _ hm)
                  rw [hls] at hsvc
                  have : a.tk = btk := by
                    injection hsvc.symm with h
                    injection h
                  show btk = tk
                  rw [← this, ha', htk]
          | instTransient btk inst =>
              simp only [getService, hls] at hok
              exact castResult_ok_pair_key tk btk _ _ _ p hok
          | instSingleton btk inst =>
              simp only [getService, hls] at hok
              exact castResult_ok_pair_key tk btk _ _ _ p hok
          | facTransient btk fc =>
              simp only [getService, hls] at hok
              exact castResult_ok_pair_key tk btk _ _ _ p hok
          | facSingleton btk fc =>
              cases hm : lookupSlot (0, btk) w.statics with
              | some q =>
                  simp only [getService, hls, hm] at hok
                  exact castResult_ok_pair_key tk btk _ _ _ p hok
              | none =>
                  simp only [getService, hls, hm] at hok
                  exact castResult_ok_pair_key tk btk _ _ _ p hok
          | cfacTransient btk fc =>
              cases fc with
              | fresh fid =>
                  simp only [getService, hls] at hok
                  exact castResult_ok_pair_key tk btk _ _ _ p hok
              | retNull fid =>
                  simp only [getService, hls] at hok
                  exact castResult_ok_pair_key tk btk _ _ _ p hok
              | resolveDep fid depTk =>
                  rcases hgs : getService f hash c (w.logFac fid) depTk with
                    ⟨r', c1, w1⟩
                  cases r' with
                  | ok d =>
                      simp only [getService, hls, hgs] at hok
                      exact castResult_ok_pair_key tk btk _ _ _ p hok
                  | error e =>
                      simp only [getService, hls, hgs] at hok
                      simp [castResult] at hok
          | cfacSingleton btk fc =>
              cases hm : lookupSlot (1, btk) w.statics with
              | some q =>
                  simp only [getService, hls, hm] at hok
                  exact castResult_ok_pair_key tk btk _ _ _ p hok
              | none =>
                  cases fc with
                  | fresh fid =>
                      simp only [getService, hls, hm] at hok
                      exact castResult_ok_pair_key tk btk _ _ _ p hok
                  | retNull fid =>
                      simp only [getService, hls, hm] at hok
                      exact castResult_ok_pair_key tk btk _ _ _ p hok
                  | resolveDep fid depTk =>
                      rcases hgs : getService f hash c (w.logFac fid) depTk with
                        ⟨r', c1, w1⟩
                      cases r' with
                      | ok d =>
                          simp only [getService, hls, hm, hgs] at hok
                          exact castResult_ok_pair_key tk btk _ _ _ p hok
                      | error e =>
                          simp only [getService, hls, hm, hgs] at hok
                          simp [castResult] at hok
  · intro c w tk cr hWK hSC hls hkey hbad
    cases fuel with
    | zero => simp [getService] at hbad
    | succ f =>
      cases cr with
      | transientCT btk =>
          have hbtk : btk = tk := hkey
          subst hbtk
          simp [getService, hls, castResult] at hbad
      | singletonCT btk =>
          have hbtk : btk = tk := hkey
          subst hbtk
          cases hm : lookupKey (hash btk) c.singletons with
          | none => simp [getService, hls, hm, castResult] at hbad
          | some a =>
              have hsvc := hSC (hash btk, a) (lookupKey_mem _ _ _ hm)
              rw [hls] at hsvc
              have hatk : a.tk = btk := by
                injection hsvc.symm with h
                injection h
              simp [getService, hls, hm, castResult, hatk] at hbad
      | instTransient btk inst =>
          have hbtk : btk = tk := hkey
          subst hbtk
          simp [getService, hls, castResult] at hbad
      | instSingleton btk inst =>
          have hbtk : btk = tk := hkey
          subst hbtk
          simp [getService, hls, castResult] at hbad
      | facTransient btk fc =>
          have hbtk : btk = tk := hkey
          subst hbtk
          cases fc <;> simp [getService, hls, castResult, runFactory] at hbad
      | facSingleton btk fc =>
          have hbtk : btk = tk := hkey
          subst hbtk
          cases hm : lookupSlot (0, btk) w.statics with
          | some q => simp [getService, hls, hm, castResult] at hbad
          | none =>
              cases fc <;> simp [getService, hls, hm, castResult, runFactory] at hbad
      | cfacTransient btk fc =>
          have hbtk : btk = tk := hkey
          subst hbtk
          cases fc with
          | fresh fid => simp [getService, hls, castResult] at hbad
          | retNull fid => simp [getService, hls, castResult] at hbad
          | resolveDep fid depTk => exact ⟨fid, depTk, .inl rfl⟩
      | cfacSingleton btk fc =>
          have hbtk : btk = tk := hkey
          subst hbtk
          cases hm : lookupSlot (1, btk) w.statics with
          | some q => simp [getService, hls, hm, castResult] at hbad
          | none =>
              cases fc with
              | fresh fid => simp [getService, hls, hm, castResult] at hbad
              | retNull fid => simp [getService, hls, hm, castResult] at hbad
              | resolveDep fid depTk => exact ⟨fid, depTk, .inr rfl⟩

/-- Witness for C9: part (a) at a well-formed container with a transient
registration for key 5 whose resolution succeeds; part (b) at a container
using a colliding hash (types 1 and 3 both hash to 0) in which resolving
key 2 — whose own entry is correctly registered for 2 — surfaces a
`bad_any_cast` propagated out of its registry-aware factory's nested
resolution of key 3, which finds the entry registered for type 1. -/
theorem spec_C9_type_narrowing_safe_witness :
    ((getService 1 id (applyRegs id Container.empty [.transientType 5])
        World.fresh 5).1 = .ok (some 0) ∧
     ((lookupKey (id 5) (applyRegs id Container.empty [.transientType 5]).services
          = none ∧ (some 0 : Ptr) = none) ∨
      ∃ cr, lookupKey (id 5)
          (applyRegs id Container.empty [.transientType 5]).services = some cr ∧
        cr.key = 5)) ∧
    ((getService 2 (fun t => if t = 1 then 0 else if t = 3 then 0 else t)
        (applyRegs (fun t => if t = 1 then 0 else if t = 3 then 0 else t)
          Container.empty [.singletonType 1, .singletonCFactory 2 (.resolveDep 9 3)])
        World.fresh 2).1 = .error .badAnyCast ∧
     ∃ fid depTk,
       Creator.cfacSingleton 2 (.resolveDep 9 3) =
           .cfacTransient 2 (.resolveDep fid depTk) ∨
       Creator.cfacSingleton 2 (.resolveDep 9 3) =
           .cfacSingleton 2 (.resolveDep fid depTk)) := by
  constructor
  · refine ⟨rfl, ?_⟩
    exact (spec_C9_type_narrowing_safe 1 id).1
      (applyRegs id Container.empty [.transientType 5]) World.fresh 5 (some 0)
      (applyRegs_wellFormed id _).1 (applyRegs_wellFormed id _).2 rfl
  · refine ⟨by decide, ?_⟩
    exact (spec_C9_type_narrowing_safe 2
        (fun t => if t = 1 then 0 else if t = 3 then 0 else t)).2
      (applyRegs (fun t => if t = 1 then 0 else if t = 3 then 0 else t)
        Container.empty [.singletonType 1, .singletonCFactory 2 (.resolveDep 9 3)])
      World.fresh 2 (.cfacSingleton 2 (.resolveDep 9 3))
      (applyRegs_wellFormed _ _).1 (applyRegs_wellFormed _ _).2 (by decide) rfl
      (by decide)

/-- C4 (evaluation at the failing input): singleton state for
factory-registered singletons is NOT scoped to one registry instance.  Two
distinct containers each register their own factory (ids 1 and 2) for the
same type 7 via `AddSingleton(std::function<shared_ptr<Type>()>)`.
Container A resolves first: its factory runs and the function-local
`static` (shared by every container, since it lives in the one lambda
produced by the template instantiation `AddSingleton<Type>`) is
initialized with instance 0.  Container B's resolution then returns that
very instance 0: B's own factory (id 2) is never invoked — the invocation
log still reads `[1]` and the only construction ever performed is instance
0 built by factory 1.  Resolutions on one container thus determine the
instance returned by the other, contradicting the claim. -/
theorem spec_C4_singleton_static_shared_across_containers :
    (let cA := applyReg id Container.empty (.singletonFactory 7 (.fresh 1))
     let cB := applyReg id Container.empty (.singletonFactory 7 (.fresh 2))
     let s1 := getService 1 id cA World.fresh 7
     let s2 := getService 1 id cB s1.2.2 7
     s1.1 = .ok (some 0) ∧
     s2.1 = .ok (some 0) ∧
     s2.2.2.facLog = [1] ∧
     s2.2.2.facLog.count 2 = 0 ∧
     s2.2.2.allocLog = [(0, 7, .byFactory 1)]) := by decide

/-- C5 (evaluation at the failing input): for a service registered from a
pre-built instance, the singleton half of the claim holds — every
resolution returns the very instance supplied (here instance 5) — but the
transient half does not match the code: `AddTransient(instance)` builds
`std::make_shared<Type>(instance)` (line 63), so the object produced by a
resolution is constructed with the captured `shared_ptr` handle itself as
the constructor argument (`Ctor.fromSharedPtr (some 5)`), which is not
copy construction from the pointee's value (`Ctor.copyOf 5`); for a `Type`
with no constructor taking `shared_ptr<Type>` this line does not even
compile. -/
theorem spec_C5_prebuilt_instance_semantics :
    (let cs := applyReg id Container.empty (.singletonInstance 3 (some 5))
     (resolveN 1 id 2 cs World.fresh 3).1 = [.ok (some 5), .ok (some 5)]) ∧
    (let ct := applyReg id Container.empty (.transientInstance 3 (some 5))
     let s := getService 1 id ct ⟨6, [], [], []⟩ 3
     s.1 = .ok (some 6) ∧
     s.2.2.allocLog = [(6, 3, .fromSharedPtr (some 5))] ∧
     Ctor.fromSharedPtr (some 5) ≠ Ctor.copyOf 5) := by decide

/-- C7 (intended-semantics evaluation; the registry-aware overload as
written does not compile, see the header comment): a singleton for type 2
registered via a registry-aware factory that resolves its dependency of
type 1 — itself a registered concrete-type singleton — from the container
it receives.  Resolving the outer service realizes the inner dependency
exactly once (one construction of type 1, instance 0), the outer instance
is built from that dependency (`Ctor.fromDep (some 0)`), and a subsequent
direct resolution of type 1 returns the same instance 0 without any
further construction. -/
theorem spec_C7_registry_aware_singleton_shares_dependency :
    (let c := applyRegs id Container.empty
        [.singletonType 1, .singletonCFactory 2 (.resolveDep 9 1)]
     let s1 := getService 2 id c World.fresh 2
     let s2 := getService 2 id s1.2.1 s1.2.2 1
     s1.1 = .ok (some 1) ∧
     s1.2.2.allocLog = [(0, 1, .default), (1, 2, .fromDep (some 0))] ∧
     s2.1 = .ok (some 0) ∧
     s2.2.2.allocLog = s1.2.2.allocLog) := by decide

end Cppdi
